import Mathlib

/-!
# DataRecorder (rtabmap guilib)

A shallow embedding of `guilib/src/DataRecorder.cpp`: the recorder object, its
operations `init`, `closeRecorder`, `addData`, `showImage` and `handleEvent`,
each returning the new object together with the sequence of effects it
performed (lock operations, calls on the store, field writes, notifications),
and a small step machine for sequences of calls.

The store `rtabmap::Memory` is a collaborator whose source is not part of the
translated file; it is modelled from the specification's FrameStore contract.
-/

namespace rtabmap

/-! ## Collaborator types -/

/-- Keys of the store parameters named by the recorder (`Parameters::k...()`). -/
inductive ParamKey
  | kMemRehearsalSimilarity
  | kKpWordsPerImage
  | kMemBinDataKept
  | kDbSqlite3InMemory
  | kMemGenerateIds
  deriving DecidableEq

abbrev ParametersPair := ParamKey × String

abbrev ParametersMap := List ParametersPair

/-- The `std::map::insert` of a pair: an existing key keeps its value. -/
def ParametersMap.insert (m : ParametersMap) (p : ParametersPair) : ParametersMap :=
  if m.any (fun q => decide (q.1 = p.1)) then m else m ++ [p]

/-- The frame handed to the recorder: identifier, validity (`isValid()`), and
handles of the two raw buffers (`image()`, `depthOrRightImage()`). -/
structure SensorData where
  id : Int
  valid : Bool
  image : Nat
  depthOrRightImage : Nat
  deriving DecidableEq

/-- The committed record of the store; the two numbers are
`getImageCompressed().total()` and `getDepthCompressed().total()`. -/
structure Signature where
  id : Int
  imageCompressed : Nat
  depthCompressed : Nat
  deriving DecidableEq

/-- Modelled from the spec: the result of `FrameStore.insert` (`Memory::update`),
which is decided by the store: either the write fails, or a record is committed
with the compressed sizes of the primary and secondary buffers. -/
inductive UpdateOutcome
  | failed
  | committed (imageCompressedTotal depthCompressedTotal : Nat)
  deriving DecidableEq

/-- Modelled from the spec: the FrameStore collaborator (`rtabmap::Memory`, whose
source is absent). It keeps the target, the options it was opened with, the
identifier mode (`Mem/GenerateIds`), the identifiers held in short-term memory
(`getStMem()`), the last committed record (`getLastWorkingSignature()`, null
before the first commit) and the last generated identifier. -/
structure Memory where
  dbUrl : String
  parameters : ParametersMap
  generateIds : Bool
  stMem : List Int
  lastSignature : Option Signature
  idCount : Int
  deriving DecidableEq

namespace Memory

/-- Modelled from the spec: a newly constructed store (`new Memory()`): empty,
store-generated identifiers. -/
def construct : Memory :=
  { dbUrl := "", parameters := [], generateIds := true, stMem := [],
    lastSignature := none, idCount := 0 }

/-- Modelled from the spec: `Memory::parseParameters`; of the options only the
identifier mode is tracked (`externalIdMode`), the value "false" selecting
caller-supplied identifiers. -/
def parseParameters (m : Memory) (p : ParametersMap) : Memory :=
  match p.lookup ParamKey.kMemGenerateIds with
  | some v => { m with generateIds := !(v == "false") }
  | none => m

/-- Modelled from the spec: `FrameStore.open(targetPath, resetExisting, options)`
(`Memory::init`); whether it succeeds is decided by the store (`storeOk`). A
successful open with `dbOverwritten` starts from an empty store. -/
def init (m : Memory) (dbUrl : String) (dbOverwritten : Bool)
    (parameters : ParametersMap) (storeOk : Bool) : Bool × Memory :=
  if storeOk then
    let m1 : Memory :=
      if dbOverwritten then
        { m with dbUrl := dbUrl, parameters := parameters, stMem := [],
                 lastSignature := none, idCount := 0 }
      else { m with dbUrl := dbUrl, parameters := parameters }
    (true, parseParameters m1 parameters)
  else (false, m)

/-- Modelled from the spec: `FrameStore.insert(frame)` (`Memory::update`). A failed
write leaves the store as it was; a successful one commits a record, keyed by the
caller's identifier in external-id mode and by a fresh one otherwise, which
becomes the last committed record and enters short-term memory. -/
def update (m : Memory) (data : SensorData) (outcome : UpdateOutcome) : Bool × Memory :=
  match outcome with
  | UpdateOutcome.failed => (false, m)
  | UpdateOutcome.committed a b =>
    let newId : Int := if m.generateIds then m.idCount + 1 else data.id
    (true, { m with stMem := m.stMem ++ [newId],
                    lastSignature := some { id := newId, imageCompressed := a, depthCompressed := b },
                    idCount := if m.generateIds then m.idCount + 1 else m.idCount })

/-- Modelled from the spec: `Memory::getLastWorkingSignature`, the last committed
record, null when nothing was committed. -/
def getLastWorkingSignature (m : Memory) : Option Signature := m.lastSignature

/-- Modelled from the spec: `FrameStore.cheapCleanup()` (`Memory::cleanup`),
fire-and-forget housekeeping that touches no committed record. -/
def cleanup (m : Memory) : Memory := m

/-- Modelled from the spec: `Memory::emptyTrash`, fire-and-forget housekeeping that
touches no committed record. -/
def emptyTrash (m : Memory) : Memory := m

end Memory

/-- Codes of a camera event (`CameraEvent::Code`). -/
inductive CameraEventCode
  | kCodeFeatures
  | kCodeImage
  | kCodeImageDepth
  | kCodeNoMoreImages
  deriving DecidableEq

/-- An event of the events manager: its class name, and the code and data read
through the `CameraEvent` cast. -/
structure UEvent where
  className : String
  code : CameraEventCode
  data : SensorData
  deriving DecidableEq

/-! ## Effects -/

/-- The effects an operation of the recorder performs, in program order. -/
inductive Action
  | lock
  | unlock
  | newMemory
  | memoryInit (dbUrl : String) (dbOverwritten : Bool) (parameters : ParametersMap)
  | deleteMemory
  | getStMem
  | parseParameters (parameters : ParametersMap)
  | update (id : Int)
  | getLastWorkingSignature
  | cleanup
  | emptyTrash
  | writeMemory
  | writePath
  | writeProcessingImages (value : Bool)
  | writeCount
  | writeTotalSizeKB
  | uerror (msg : String)
  | uinfoDataRecorded (path : String)
  | messageBoxDataRecorded (path : String)
  | invokeShowImage (image depth : Nat)
  | setImage (image : Nat)
  | setImageDepth (depth : Nat)
  | setText (count megabytes : Int)
  deriving DecidableEq

namespace Action

/-- A call on the store object, or its construction or destruction. -/
def usesStore : Action → Bool
  | newMemory => true
  | memoryInit _ _ _ => true
  | deleteMemory => true
  | getStMem => true
  | parseParameters _ => true
  | update _ => true
  | getLastWorkingSignature => true
  | cleanup => true
  | emptyTrash => true
  | writeMemory => true
  | _ => false

/-- A write to `count_` or `totalSizeKB_`. -/
def writesCounter : Action → Bool
  | writeCount => true
  | writeTotalSizeKB => true
  | _ => false

/-- The session summary ("Data recorded to ..."), logged or shown in a dialog. -/
def isSummary : Action → Bool
  | uinfoDataRecorded _ => true
  | messageBoxDataRecorded _ => true
  | _ => false

end Action

/-- Whether every action selected by `sensitive` happens while the mutex is held;
`held` is the state of the mutex before the first action. -/
def lockScoped (sensitive : Action → Bool) : Bool → List Action → Bool
  | _, [] => true
  | _, Action.lock :: rest => lockScoped sensitive true rest
  | _, Action.unlock :: rest => lockScoped sensitive false rest
  | held, a :: rest => (held || !sensitive a) && lockScoped sensitive held rest

/-! ## The recorder -/

/-- The fault of reading through a null `Signature` pointer. -/
inductive Fault
  | nullSignature
  deriving DecidableEq

/-- The fields of `DataRecorder` the operations read and write. The two counters
are C++ `int`: they are integers that every operation writing them keeps in the
32-bit range (`wrapInt`). -/
structure DataRecorder where
  memory_ : Option Memory
  path_ : String
  processingImages_ : Bool
  count_ : Int
  totalSizeKB_ : Int
  deriving DecidableEq

/-- The value of an `int` computation: the result modulo 2^32, read as a signed
32-bit integer (an overflowing `+=` or `++` wraps around). -/
def wrapInt (x : Int) : Int := (x + 2147483648) % 4294967296 - 2147483648

/-- The `(int)` conversion of a `size_t`: the value modulo 2^32, read as signed. -/
def castInt (n : Nat) : Int :=
  if n % 2 ^ 32 < 2 ^ 31 then ((n % 2 ^ 32 : Nat) : Int) else ((n % 2 ^ 32 : Nat) : Int) - 2 ^ 32

/-- The expression `(int)total/1000` of `addData`: the conversion, then the
truncating division of C++. -/
def sizeKB (total : Nat) : Int := Int.tdiv (castInt total) 1000

namespace DataRecorder

/-- The member initialisers of the constructor. -/
def construct : DataRecorder :=
  { memory_ := none, path_ := "", processingImages_ := false, count_ := 0, totalSizeKB_ := 0 }

/-- The options `init` builds for the store. -/
def customParameters (recordInRAM : Bool) : ParametersMap :=
  let p0 : ParametersMap := []
  let p1 := ParametersMap.insert p0 (ParamKey.kMemRehearsalSimilarity, "1.0")
  let p2 := ParametersMap.insert p1 (ParamKey.kKpWordsPerImage, "-1")
  let p3 := ParametersMap.insert p2 (ParamKey.kMemBinDataKept, "true")
  if !recordInRAM then ParametersMap.insert p3 (ParamKey.kDbSqlite3InMemory, "false") else p3

/-- The function `DataRecorder::init`. The scoped lock is taken on entry and
released on every return. `storeOk` is the store's answer to `Memory::init`. -/
def init (s : DataRecorder) (path : String) (recordInRAM : Bool) (storeOk : Bool) :
    Bool × DataRecorder × List Action :=
  match s.memory_ with
  | none =>
    let params := customParameters recordInRAM
    let r := Memory.init Memory.construct path true params storeOk
    if !r.1 then
      (false, { s with memory_ := none },
        [Action.lock, Action.newMemory, Action.writeMemory, Action.memoryInit path true params,
         Action.deleteMemory, Action.writeMemory,
         Action.uerror "Error initializing the memory.", Action.unlock])
    else
      (true, { s with memory_ := some r.2, path_ := path },
        [Action.lock, Action.newMemory, Action.writeMemory, Action.memoryInit path true params,
         Action.writePath, Action.unlock])
  | some _ =>
    (false, s, [Action.lock, Action.uerror "Already initialized, close it first.", Action.unlock])

/-- The function `DataRecorder::closeRecorder`; `isVisible` is the widget's `isVisible()`. -/
def closeRecorder (s : DataRecorder) (isVisible : Bool) : DataRecorder × List Action :=
  let released : List Action :=
    match s.memory_ with
    | some _ => [Action.deleteMemory, Action.writeMemory, Action.uinfoDataRecorded s.path_]
    | none => []
  ({ s with memory_ := none, processingImages_ := false, count_ := 0, totalSizeKB_ := 0 },
    [Action.lock] ++ released ++
    [Action.unlock, Action.writeProcessingImages false, Action.writeCount, Action.writeTotalSizeKB] ++
    (if isVisible then [Action.messageBoxDataRecorded s.path_] else []))

/-- The function `DataRecorder::addData`. The result of `Memory::update` is not
looked at; the record read back is the store's last committed one, and reading
through a null record is a fault. The timer and its debug line are left out. -/
def addData (s : DataRecorder) (data : SensorData) (outcome : UpdateOutcome) :
    Except Fault (DataRecorder × List Action) :=
  match s.memory_ with
  | none => Except.ok (s, [Action.lock, Action.unlock])
  | some m =>
    let useDataId : Bool := decide (m.stMem.length = 0) && decide (data.id > 0)
    let idParameters : ParametersMap := ParametersMap.insert [] (ParamKey.kMemGenerateIds, "false")
    let m1 := if useDataId then m.parseParameters idParameters else m
    let m2 := (m1.update data outcome).2
    match m2.getLastWorkingSignature with
    | none => Except.error Fault.nullSignature
    | some sig =>
      let total1 := wrapInt (s.totalSizeKB_ + sizeKB sig.imageCompressed)
      let total2 := wrapInt (total1 + sizeKB sig.depthCompressed)
      let m3 := m2.cleanup
      let count := wrapInt (s.count_ + 1)
      let trash : Bool := decide (Int.tmod count 30 ≠ 0)
      let m4 := if trash then m3.emptyTrash else m3
      Except.ok
        ({ s with memory_ := some m4, count_ := count, totalSizeKB_ := total2 },
          [Action.lock, Action.getStMem] ++
          (if useDataId then [Action.parseParameters idParameters] else []) ++
          [Action.update data.id, Action.getLastWorkingSignature, Action.writeTotalSizeKB,
           Action.writeTotalSizeKB, Action.cleanup, Action.writeCount] ++
          (if trash then [Action.emptyTrash] else []) ++
          [Action.unlock])

/-- The function `DataRecorder::showImage`. -/
def showImage (s : DataRecorder) (image depth : Nat) : DataRecorder × List Action :=
  let s1 := { s with processingImages_ := true }
  let s2 := { s1 with processingImages_ := false }
  (s2, [Action.writeProcessingImages true, Action.setImage image, Action.setImageDepth depth,
        Action.setText s1.count_ (Int.tdiv s1.totalSizeKB_ 1000),
        Action.writeProcessingImages false])

/-- The function `DataRecorder::handleEvent`; `isVisible` is the widget's
`isVisible()` and `outcome` the store's answer should the frame be ingested. The
line logging the receiving rate is left out. -/
def handleEvent (s : DataRecorder) (event : UEvent) (isVisible : Bool) (outcome : UpdateOutcome) :
    Except Fault (DataRecorder × List Action) :=
  if s.memory_.isSome then
    if event.className == "CameraEvent" then
      if event.code == CameraEventCode.kCodeImageDepth || event.code == CameraEventCode.kCodeImage then
        if event.data.valid then
          match addData s event.data outcome with
          | Except.error f => Except.error f
          | Except.ok (s1, t1) =>
            if !s1.processingImages_ && isVisible && event.data.valid then
              Except.ok
                ({ s1 with processingImages_ := true },
                  t1 ++ [Action.writeProcessingImages true,
                         Action.invokeShowImage event.data.image event.data.depthOrRightImage])
            else Except.ok (s1, t1)
        else Except.ok (s, [])
      else Except.ok (s, [])
    else Except.ok (s, [])
  else Except.ok (s, [])

end DataRecorder

/-! ## Sequences of calls -/

/-- The recorder together with the queued `showImage` invocations that were posted
to the widget's thread and have not run yet. -/
structure System where
  recorder : DataRecorder
  queue : List (Nat × Nat)
  deriving DecidableEq

/-- One call on the recorder: `init`, `addData`, `closeRecorder`, `handleEvent`
(an offer of a frame), or the widget's thread running the oldest queued
`showImage`. Each carries the answers of the environment. -/
inductive Step
  | init (path : String) (recordInRAM storeOk : Bool)
  | addData (data : SensorData) (outcome : UpdateOutcome)
  | closeRecorder (isVisible : Bool)
  | handleEvent (event : UEvent) (isVisible : Bool) (outcome : UpdateOutcome)
  | showImage
  deriving DecidableEq

/-- The `showImage` invocations queued by a sequence of effects. -/
def posted : List Action → List (Nat × Nat)
  | [] => []
  | Action.invokeShowImage i d :: rest => (i, d) :: posted rest
  | _ :: rest => posted rest

/-- The state before any call: a constructed recorder, nothing queued. -/
def System.start : System := { recorder := DataRecorder.construct, queue := [] }

/-- The effect of one call on the system. -/
def step (sys : System) : Step → Except Fault System
  | Step.init path recordInRAM storeOk =>
    Except.ok { sys with recorder := (sys.recorder.init path recordInRAM storeOk).2.1 }
  | Step.addData data outcome =>
    match sys.recorder.addData data outcome with
    | Except.error f => Except.error f
    | Except.ok r => Except.ok { sys with recorder := r.1 }
  | Step.closeRecorder isVisible =>
    Except.ok { sys with recorder := (sys.recorder.closeRecorder isVisible).1 }
  | Step.handleEvent event isVisible outcome =>
    match sys.recorder.handleEvent event isVisible outcome with
    | Except.error f => Except.error f
    | Except.ok r => Except.ok { recorder := r.1, queue := sys.queue ++ posted r.2 }
  | Step.showImage =>
    match sys.queue with
    | [] => Except.ok sys
    | (image, depth) :: rest =>
      Except.ok { recorder := (sys.recorder.showImage image depth).1, queue := rest }

/-- A sequence of calls, stopping at the first fault. -/
def run : System → List Step → Except Fault System
  | sys, [] => Except.ok sys
  | sys, st :: rest =>
    match step sys st with
    | Except.error f => Except.error f
    | Except.ok sys1 => run sys1 rest

/-- Whether every `closeRecorder` of the sequence is called while no `showImage`
invocation is queued. -/
def closesWhenIdle : System → List Step → Bool
  | _, [] => true
  | sys, st :: rest =>
    (match st with
     | Step.closeRecorder _ => sys.queue.isEmpty
     | _ => true) &&
    (match step sys st with
     | Except.error _ => true
     | Except.ok sys1 => closesWhenIdle sys1 rest)

/-- A sequence of `addData` calls, with the effects of each call. -/
def addDataAll : DataRecorder → List (SensorData × UpdateOutcome) →
    Except Fault (DataRecorder × List (List Action))
  | s, [] => Except.ok (s, [])
  | s, (data, outcome) :: rest =>
    match s.addData data outcome with
    | Except.error f => Except.error f
    | Except.ok (s1, t) =>
      match addDataAll s1 rest with
      | Except.error f => Except.error f
      | Except.ok (s2, ts) => Except.ok (s2, t :: ts)

/-- The 1-indexed positions of the calls whose effects include `emptyTrash`. -/
def emptyTrashCalls : Nat → List (List Action) → List Nat
  | _, [] => []
  | n, t :: ts =>
    if t.contains Action.emptyTrash then n :: emptyTrashCalls (n + 1) ts
    else emptyTrashCalls (n + 1) ts

open DataRecorder

/-! ## Predicates and concrete inputs of the statements -/

/-- The state of the recorder in which the session is closed has both counters at
zero: the invariant of the sequential use of the class. -/
def CountersReset (s : DataRecorder) : Prop :=
  s.memory_ = none → s.count_ = 0 ∧ s.totalSizeKB_ = 0

/-- The frames of a run of successful ingests: the data of each frame and the
compressed sizes (image, depth) of the record the store commits for it. -/
def committedFrames (frames : List (SensorData × Nat × Nat)) : List (SensorData × UpdateOutcome) :=
  frames.map (fun f => (f.1, UpdateOutcome.committed f.2.1 f.2.2))

/-- The store a successful `init` leaves in the recorder. -/
def openedMemory (path : String) (recordInRAM : Bool) : Memory :=
  { dbUrl := path, parameters := customParameters recordInRAM, generateIds := true, stMem := [],
    lastSignature := none, idCount := 0 }

/-- A valid frame with the given identifier, for the concrete runs. -/
def frameWithId (id : Int) : SensorData :=
  { id := id, valid := true, image := 1, depthOrRightImage := 2 }

/-- A constructed recorder after `init("sessA", true)` with a store that opens. -/
def sessA : DataRecorder := (DataRecorder.construct.init "sessA" true true).2.1

/-- The counters after a sequence of `addData` calls, when none faulted. -/
def countersAfter (s : DataRecorder) (frames : List (SensorData × UpdateOutcome)) :
    Option (Int × Int) :=
  (addDataAll s frames).toOption.map (fun r => (r.1.count_, r.1.totalSizeKB_))

/-- The range of a C++ `int`. -/
def InIntRange (x : Int) : Prop := -2147483648 ≤ x ∧ x < 2147483648

/-- Both counters of the recorder are in the range of an `int`. -/
def CountersInRange (s : DataRecorder) : Prop :=
  InIntRange s.count_ ∧ InIntRange s.totalSizeKB_

/-- The single-flight condition of the preview path: at most one `showImage`
invocation is queued, and the busy flag is set while one is. -/
def SingleFlight (sys : System) : Prop :=
  sys.queue.length ≤ 1 ∧ (sys.queue ≠ [] → sys.recorder.processingImages_ = true)

/-- A camera event carrying a valid frame with id 3. -/
def cameraEvent : UEvent :=
  { className := "CameraEvent", code := CameraEventCode.kCodeImage, data := frameWithId 3 }

/-- The busy flag and the number of queued `showImage` invocations after a run. -/
def previewAfter (steps : List Step) : Option (Bool × Nat) :=
  (run System.start steps).toOption.map
    (fun sys => (sys.recorder.processingImages_, sys.queue.length))

/-- The call `parseParameters` that selects caller-supplied identifiers
(`Mem/GenerateIds` set to "false"). -/
def Action.selectsDataIds : Action → Bool
  | Action.parseParameters p => decide (p.lookup ParamKey.kMemGenerateIds = some "false")
  | _ => false

/-- Whether the effects of a call include the switch to caller-supplied
identifiers. -/
def switchesIdMode (t : List Action) : Bool := t.any Action.selectsDataIds

/-- The result of a sequence of `addData` calls on `sessA` (the recorder itself
with no effects should a call fault). -/
def sessARun (frames : List (SensorData × UpdateOutcome)) : DataRecorder × List (List Action) :=
  match addDataAll sessA frames with
  | Except.ok r => r
  | Except.error _ => (sessA, [])

/-- Three frames: id 5 committed, id 0 committed, id -1 with a failed write. -/
def threeFrames : List (SensorData × UpdateOutcome) :=
  [(frameWithId 5, UpdateOutcome.committed 1500 2500),
   (frameWithId 0, UpdateOutcome.committed 1500 2500),
   (frameWithId (-1), UpdateOutcome.failed)]

/-- The locking discipline: every write to a counter and every use of the store
happens while the mutex is held. -/
def underMutex (t : List Action) : Bool :=
  lockScoped (fun a => a.writesCounter || a.usesStore) false t

/-- The store of the recorder has no committed record while its short-term memory
is empty. -/
def StoreConsistent (s : DataRecorder) : Prop :=
  ∀ m, s.memory_ = some m → m.stMem = [] → m.lastSignature = none

/-! ## Theorems -/

theorem sizeKB_of_lt (n : Nat) (h : n < 2 ^ 31) : sizeKB n = ((n / 1000 : Nat) : Int) := by
  have h2 : n % 2 ^ 32 = n := Nat.mod_eq_of_lt (by omega)
  unfold sizeKB castInt
  rw [h2, if_pos h]
  rfl

theorem wrapInt_inRange (x : Int) : InIntRange (wrapInt x) := by
  unfold InIntRange wrapInt
  omega

theorem wrapInt_of_inRange (x : Int) (h : InIntRange x) : wrapInt x = x := by
  unfold InIntRange at h
  unfold wrapInt
  omega

theorem wrapInt_add_left (a b : Int) : wrapInt (wrapInt a + b) = wrapInt (a + b) := by
  unfold wrapInt
  omega

theorem addData_closed (s : DataRecorder) (data : SensorData) (outcome : UpdateOutcome)
    (h : s.memory_ = none) :
    s.addData data outcome = Except.ok (s, [Action.lock, Action.unlock]) := by
  simp [addData, h]

/-- What a committing `addData` does to an open recorder. -/
theorem addData_committed (s : DataRecorder) (m : Memory) (data : SensorData) (a b : Nat)
    (hm : s.memory_ = some m) :
    ∃ r, s.addData data (UpdateOutcome.committed a b) = Except.ok r ∧
      r.1.count_ = wrapInt (s.count_ + 1) ∧
      r.1.totalSizeKB_ = wrapInt (s.totalSizeKB_ + sizeKB a + sizeKB b) ∧
      r.1.path_ = s.path_ ∧
      r.1.processingImages_ = s.processingImages_ ∧
      (∃ m1, r.1.memory_ = some m1 ∧ m1.stMem ≠ [] ∧ m1.lastSignature ≠ none) ∧
      (r.2.contains Action.emptyTrash = decide (Int.tmod (wrapInt (s.count_ + 1)) 30 ≠ 0)) := by
  simp only [addData, hm, Memory.update, Memory.getLastWorkingSignature, Memory.cleanup,
    Memory.emptyTrash]
  refine ⟨_, rfl, rfl, wrapInt_add_left _ _, rfl, rfl, ?_, ?_⟩
  · simp
  · by_cases h1 : (decide (m.stMem.length = 0) && decide (data.id > 0)) = true <;>
    by_cases h2 : Int.tmod (wrapInt (s.count_ + 1)) 30 = 0 <;> simp [h1, h2]

/-- What any returning `addData` does to an open recorder: the counter advances and
the sizes of the record read back are added (as `int` computations), whatever the
store answered. -/
theorem addData_open (s : DataRecorder) (m : Memory) (data : SensorData) (outcome : UpdateOutcome)
    (r : DataRecorder × List Action)
    (hm : s.memory_ = some m) (h : s.addData data outcome = Except.ok r) :
    r.1.count_ = wrapInt (s.count_ + 1) ∧
    r.1.path_ = s.path_ ∧
    r.1.processingImages_ = s.processingImages_ ∧
    posted r.2 = [] ∧
    ∃ m1 sig, r.1.memory_ = some m1 ∧ m1.lastSignature = some sig ∧
      r.1.totalSizeKB_ =
        wrapInt (s.totalSizeKB_ + sizeKB sig.imageCompressed + sizeKB sig.depthCompressed) := by
  simp only [addData, hm, Memory.getLastWorkingSignature, Memory.cleanup, Memory.emptyTrash] at h
  split at h
  · exact absurd h (by simp)
  · rename_i sig hsig
    injection h with h
    subst h
    refine ⟨rfl, rfl, rfl, ?_, _, sig, rfl, ?_, wrapInt_add_left _ _⟩
    · split_ifs <;> rfl
    · simpa using hsig

theorem countersReset_construct : CountersReset DataRecorder.construct := by
  intro _
  exact ⟨rfl, rfl⟩

theorem countersReset_init (s : DataRecorder) (path : String) (b ok : Bool)
    (h : CountersReset s) : CountersReset (s.init path b ok).2.1 := by
  unfold DataRecorder.init
  cases hm : s.memory_ with
  | none =>
    have h0 := h hm
    by_cases hr : (Memory.init Memory.construct path true (customParameters b) ok).1 = true
    · simp [hr, CountersReset]
    · simp [hr, CountersReset, h0.1, h0.2]
  | some m =>
    intro hc
    simp [hm] at hc

theorem countersReset_closeRecorder (s : DataRecorder) (v : Bool) :
    CountersReset (s.closeRecorder v).1 := by
  intro _
  exact ⟨rfl, rfl⟩

theorem countersReset_addData (s : DataRecorder) (data : SensorData) (outcome : UpdateOutcome)
    (r : DataRecorder × List Action) (h : CountersReset s)
    (hr : s.addData data outcome = Except.ok r) : CountersReset r.1 := by
  cases hm : s.memory_ with
  | none =>
    rw [addData_closed s data outcome hm] at hr
    injection hr with hr
    subst hr
    exact h
  | some m =>
    obtain ⟨_, _, _, _, m1, _, h1, _⟩ := addData_open s m data outcome r hm hr
    intro hc
    rw [h1] at hc
    exact absurd hc (by simp)

/-- The ways `handleEvent` returns: the event is ignored, or the frame is ingested
and the preview is either dropped or accepted. -/
theorem handleEvent_cases (s : DataRecorder) (event : UEvent) (v : Bool) (outcome : UpdateOutcome)
    (r : DataRecorder × List Action) (h : s.handleEvent event v outcome = Except.ok r) :
    r = (s, []) ∨
    ∃ r1, s.addData event.data outcome = Except.ok r1 ∧ s.memory_.isSome = true ∧
      ((r = r1 ∧ (r1.1.processingImages_ = true ∨ v = false)) ∨
       (r = ({ r1.1 with processingImages_ := true },
             r1.2 ++ [Action.writeProcessingImages true,
                      Action.invokeShowImage event.data.image event.data.depthOrRightImage]) ∧
        r1.1.processingImages_ = false ∧ v = true)) := by
  unfold DataRecorder.handleEvent at h
  split_ifs at h with h1 h2 h3 h4
  · cases hadd : s.addData event.data outcome with
    | error f => rw [hadd] at h; exact absurd h (by simp)
    | ok r1 =>
      rw [hadd] at h
      right
      refine ⟨r1, rfl, h1, ?_⟩
      obtain ⟨s1, t1⟩ := r1
      simp only at h
      split_ifs at h with h5
      · injection h with h
        right
        refine ⟨h.symm, ?_, ?_⟩
        · simp at h5; exact h5.1.1
        · simp at h5; exact h5.1.2
      · injection h with h
        left
        refine ⟨h.symm, ?_⟩
        simp [h4] at h5
        by_cases hp : s1.processingImages_ = true
        · exact Or.inl hp
        · right
          simp at hp
          simpa using h5 hp
  all_goals
    injection h with h
    exact Or.inl h.symm

theorem countersReset_handleEvent (s : DataRecorder) (event : UEvent) (v : Bool)
    (outcome : UpdateOutcome) (r : DataRecorder × List Action) (h : CountersReset s)
    (hr : s.handleEvent event v outcome = Except.ok r) : CountersReset r.1 := by
  rcases handleEvent_cases s event v outcome r hr with h1 | ⟨r1, hadd, _, h2 | h2⟩
  · rw [h1]; exact h
  · rw [h2.1]; exact countersReset_addData s event.data outcome r1 h hadd
  · rw [h2.1]; exact countersReset_addData s event.data outcome r1 h hadd

theorem countersReset_showImage (s : DataRecorder) (image depth : Nat) (h : CountersReset s) :
    CountersReset (s.showImage image depth).1 := h

theorem countersReset_step (sys sys1 : System) (st : Step) (h : CountersReset sys.recorder)
    (hs : step sys st = Except.ok sys1) : CountersReset sys1.recorder := by
  cases st with
  | init path b ok =>
    simp only [step] at hs
    injection hs with hs
    subst hs
    exact countersReset_init sys.recorder path b ok h
  | addData data outcome =>
    simp only [step] at hs
    cases hadd : sys.recorder.addData data outcome with
    | error f => rw [hadd] at hs; exact absurd hs (by simp)
    | ok r =>
      rw [hadd] at hs
      injection hs with hs
      subst hs
      exact countersReset_addData _ _ _ _ h hadd
  | closeRecorder v =>
    simp only [step] at hs
    injection hs with hs
    subst hs
    exact countersReset_closeRecorder sys.recorder v
  | handleEvent event v outcome =>
    simp only [step] at hs
    cases hev : sys.recorder.handleEvent event v outcome with
    | error f => rw [hev] at hs; exact absurd hs (by simp)
    | ok r =>
      rw [hev] at hs
      injection hs with hs
      subst hs
      exact countersReset_handleEvent _ _ _ _ _ h hev
  | showImage =>
    simp only [step] at hs
    cases hq : sys.queue with
    | nil =>
      rw [hq] at hs
      injection hs with hs
      subst hs
      exact h
    | cons p rest =>
      rw [hq] at hs
      injection hs with hs
      subst hs
      exact countersReset_showImage sys.recorder p.1 p.2 h

theorem countersReset_run (steps : List Step) (sys sys1 : System)
    (h : CountersReset sys.recorder) (hr : run sys steps = Except.ok sys1) :
    CountersReset sys1.recorder := by
  induction steps generalizing sys with
  | nil =>
    simp only [run] at hr
    injection hr with hr
    subst hr
    exact h
  | cons st rest ih =>
    simp only [run] at hr
    cases hs : step sys st with
    | error f => rw [hs] at hr; exact absurd hr (by simp)
    | ok sys2 =>
      rw [hs] at hr
      exact ih sys2 (countersReset_step sys sys2 st h hs) hr

theorem memoryInit_ok (path : String) (b : Bool) :
    Memory.init Memory.construct path true (customParameters b) true = (true, openedMemory path b) := by
  cases b <;> rfl

theorem memoryInit_fail (path : String) (b : Bool) :
    (Memory.init Memory.construct path true (customParameters b) false).1 = false := rfl

theorem init_open (s : DataRecorder) (m : Memory) (path : String) (b ok : Bool)
    (hm : s.memory_ = some m) :
    s.init path b ok =
      (false, s, [Action.lock, Action.uerror "Already initialized, close it first.", Action.unlock]) := by
  simp [DataRecorder.init, hm]

theorem init_closed_ok (s : DataRecorder) (path : String) (b : Bool) (hm : s.memory_ = none) :
    (s.init path b true).1 = true ∧
    (s.init path b true).2.1 = { s with memory_ := some (openedMemory path b), path_ := path } := by
  simp [DataRecorder.init, hm, memoryInit_ok]

theorem init_closed_fail (s : DataRecorder) (path : String) (b : Bool) (hm : s.memory_ = none) :
    (s.init path b false).1 = false ∧ (s.init path b false).2.1 = s := by
  have hs : ({ s with memory_ := none } : DataRecorder) = s := by
    cases s
    simp only [DataRecorder.mk.injEq] at *
    simp [hm]
  simp [DataRecorder.init, hm, memoryInit_fail, hs]

/-- A successful `init` happened on a closed recorder with a store that opened. -/
theorem init_true (s : DataRecorder) (path : String) (b ok : Bool)
    (h : (s.init path b ok).1 = true) : s.memory_ = none ∧ ok = true := by
  cases hm : s.memory_ with
  | some m => rw [init_open s m path b ok hm] at h; exact absurd h (by simp)
  | none =>
    cases ok with
    | true => exact ⟨rfl, rfl⟩
    | false => rw [(init_closed_fail s path b hm).1] at h; exact absurd h (by simp)

/-- A failed `init` leaves the recorder as it was. -/
theorem init_false (s : DataRecorder) (path : String) (b ok : Bool)
    (h : (s.init path b ok).1 = false) : (s.init path b ok).2.1 = s := by
  cases hm : s.memory_ with
  | some m => rw [init_open s m path b ok hm]
  | none =>
    cases ok with
    | true => rw [(init_closed_ok s path b hm).1] at h; exact absurd h (by simp)
    | false => exact (init_closed_fail s path b hm).2

theorem addDataAll_committed (frames : List (SensorData × Nat × Nat)) (s : DataRecorder)
    (m : Memory) (hm : s.memory_ = some m) (hrange : CountersInRange s) :
    ∃ r, addDataAll s (committedFrames frames) = Except.ok r ∧
      r.1.count_ = wrapInt (s.count_ + frames.length) ∧
      r.1.totalSizeKB_ =
        wrapInt (s.totalSizeKB_ + (frames.map (fun f => sizeKB f.2.1 + sizeKB f.2.2)).sum) ∧
      r.2.length = frames.length := by
  induction frames generalizing s m with
  | nil =>
    refine ⟨(s, []), rfl, ?_, ?_, rfl⟩
    · simp only [List.length_nil, Nat.cast_zero, add_zero]
      exact (wrapInt_of_inRange s.count_ hrange.1).symm
    · simp only [List.map_nil, List.sum_nil, add_zero]
      exact (wrapInt_of_inRange s.totalSizeKB_ hrange.2).symm
  | cons f rest ih =>
    obtain ⟨r1, h1, hc, ht, _, _, ⟨m1, hm1, _, _⟩, _⟩ := addData_committed s m f.1 f.2.1 f.2.2 hm
    have hr1 : CountersInRange r1.1 := by
      refine ⟨?_, ?_⟩
      · rw [hc]; exact wrapInt_inRange _
      · rw [ht]; exact wrapInt_inRange _
    obtain ⟨r2, h2, hc2, ht2, hl2⟩ := ih r1.1 m1 hm1 hr1
    obtain ⟨s1, t1⟩ := r1
    obtain ⟨s2, ts⟩ := r2
    refine ⟨(s2, t1 :: ts), ?_, ?_, ?_, ?_⟩
    · simp only [committedFrames, List.map_cons, addDataAll, h1]
      simp only [committedFrames] at h2
      rw [h2]
    · simp only at hc hc2 ⊢
      rw [hc2, hc, wrapInt_add_left]
      simp only [List.length_cons]
      push_cast
      congr 1
      ring
    · simp only at ht ht2 ⊢
      rw [ht2, ht, wrapInt_add_left]
      simp only [List.map_cons, List.sum_cons]
      congr 1
      ring
    · simp only at hl2 ⊢
      simp [hl2]

theorem sum_sizeKB (frames : List (SensorData × Nat × Nat))
    (hfit : ∀ f ∈ frames, f.2.1 < 2 ^ 31 ∧ f.2.2 < 2 ^ 31) :
    (frames.map (fun f => sizeKB f.2.1 + sizeKB f.2.2)).sum =
      (((frames.map (fun f => f.2.1 / 1000 + f.2.2 / 1000)).sum : Nat) : Int) := by
  induction frames with
  | nil => simp
  | cons f rest ih =>
    have hf := hfit f (List.mem_cons_self f rest)
    have hrest := ih (fun g hg => hfit g (List.mem_cons_of_mem f hg))
    simp only [List.map_cons, List.sum_cons]
    rw [hrest, sizeKB_of_lt f.2.1 hf.1, sizeKB_of_lt f.2.2 hf.2]
    push_cast
    ring

theorem countersInRange_sessA : CountersInRange sessA := by
  unfold CountersInRange InIntRange
  decide

/-- C1 (counterexample). On a session opened on "sessA": after 501 successful
ingests of frames whose two compressed buffers have 2147483647 bytes each, the
counter is 501 and the sum of the sizes in KB is 2151777966, but `totalSizeKB_`,
an `int`, is -2143189330; and after one successful ingest of a frame whose image
buffer has 2147483648 bytes (2147483 KB) the `(int)` conversion makes
`totalSizeKB_` -2147483. -/
theorem count_and_size_wrap_around :
    countersAfter sessA
        (committedFrames (List.replicate 501 (frameWithId 0, 2147483647, 2147483647))) =
      some (501, -2143189330) ∧
    ((List.replicate 501 (frameWithId 0, 2147483647, 2147483647)).map
        (fun f => f.2.1 / 1000 + f.2.2 / 1000)).sum = 2151777966 ∧
    countersAfter sessA (committedFrames [(frameWithId 5, 2147483648, 0)]) =
      some (1, -2147483) := by
  refine ⟨?_, ?_, by decide⟩
  · obtain ⟨r, hr, hc, ht, _⟩ :=
      addDataAll_committed (List.replicate 501 (frameWithId 0, 2147483647, 2147483647)) sessA
        (openedMemory "sessA" true) rfl countersInRange_sessA
    have hc0 : sessA.count_ = 0 := rfl
    have ht0 : sessA.totalSizeKB_ = 0 := rfl
    have hkb : sizeKB 2147483647 = 2147483 := by decide
    rw [hc0] at hc
    rw [ht0] at ht
    simp only [List.length_replicate, List.map_replicate, List.sum_replicate, hkb,
      smul_eq_mul, zero_add] at hc ht
    have hc1 : r.1.count_ = 501 := by rw [hc]; decide
    have ht1 : r.1.totalSizeKB_ = -2143189330 := by rw [ht]; decide
    simp only [countersAfter, hr, Except.toOption, Option.map_some', hc1, ht1]
  · simp only [List.map_replicate, List.sum_replicate, smul_eq_mul]

/-- C1 (amended). After a successful open (in any state the recorder can reach) and
N successful ingests, with every compressed buffer smaller than 2^31 bytes, N below
2^31 and the sum of the sizes below 2^31 KB, `count_` is N and `totalSizeKB_` is
the sum over the frames of the compressed image size in KB plus the compressed
depth size in KB (each a whole number of KB, bytes divided by 1000); a single frame
with id 5 gives counter 1, that sum, and one record keyed by 5. -/
theorem count_and_size_after_ingests (steps : List Step) (sys : System) (path : String)
    (recordInRAM storeOk : Bool) (frames : List (SensorData × Nat × Nat))
    (hreach : run System.start steps = Except.ok sys)
    (hopen : (sys.recorder.init path recordInRAM storeOk).1 = true)
    (hfit : ∀ f ∈ frames, f.2.1 < 2 ^ 31 ∧ f.2.2 < 2 ^ 31)
    (hcount : frames.length < 2 ^ 31)
    (hsum : (frames.map (fun f => f.2.1 / 1000 + f.2.2 / 1000)).sum < 2 ^ 31) :
    ∃ r, addDataAll (sys.recorder.init path recordInRAM storeOk).2.1 (committedFrames frames)
        = Except.ok r ∧
      r.1.count_ = (frames.length : Int) ∧
      r.1.totalSizeKB_ = (((frames.map (fun f => f.2.1 / 1000 + f.2.2 / 1000)).sum : Nat) : Int) ∧
      (∀ f, frames = [f] → f.1.id = 5 →
        r.1.count_ = 1 ∧
        r.1.totalSizeKB_ = ((f.2.1 / 1000 + f.2.2 / 1000 : Nat) : Int) ∧
        r.1.memory_.map Memory.stMem = some [5]) := by
  obtain ⟨hclosed, hok⟩ := init_true sys.recorder path recordInRAM storeOk hopen
  subst hok
  have hinv := countersReset_run steps System.start sys countersReset_construct hreach hclosed
  obtain ⟨_, hinit⟩ := init_closed_ok sys.recorder path recordInRAM hclosed
  have hc0 : (sys.recorder.init path recordInRAM true).2.1.count_ = 0 := by rw [hinit]; exact hinv.1
  have ht0 : (sys.recorder.init path recordInRAM true).2.1.totalSizeKB_ = 0 := by
    rw [hinit]; exact hinv.2
  have hrange : CountersInRange (sys.recorder.init path recordInRAM true).2.1 := by
    unfold CountersInRange InIntRange
    rw [hc0, ht0]
    decide
  obtain ⟨r, hr, hc, ht, _⟩ :=
    addDataAll_committed frames (sys.recorder.init path recordInRAM true).2.1
      (openedMemory path recordInRAM) (by rw [hinit]) hrange
  rw [hc0] at hc
  rw [ht0, sum_sizeKB frames hfit] at ht
  have hcount : r.1.count_ = (frames.length : Int) := by
    rw [hc, zero_add]
    apply wrapInt_of_inRange
    unfold InIntRange
    omega
  have htotal : r.1.totalSizeKB_ =
      (((frames.map (fun f => f.2.1 / 1000 + f.2.2 / 1000)).sum : Nat) : Int) := by
    rw [ht, zero_add]
    apply wrapInt_of_inRange
    unfold InIntRange
    omega
  refine ⟨r, hr, hcount, htotal, ?_⟩
  intro f hf hid
  subst hf
  refine ⟨by rw [hcount]; rfl, by rw [htotal]; simp, ?_⟩
  rw [hinit] at hr
  simp only [committedFrames, List.map_cons, List.map_nil, addDataAll, addData, Memory.update,
    Memory.getLastWorkingSignature, Memory.cleanup, Memory.emptyTrash, openedMemory, hid,
    ite_self] at hr
  injection hr with hr
  subst hr
  rfl

theorem count_and_size_after_ingests_witness :
    ∃ r, addDataAll (System.start.recorder.init "sessA" true true).2.1
        (committedFrames [({ id := 5, valid := true, image := 1, depthOrRightImage := 2 }, 1500, 2500)])
        = Except.ok r ∧
      r.1.count_ = 1 ∧ r.1.totalSizeKB_ = 3 ∧ r.1.memory_.map Memory.stMem = some [5] := by
  obtain ⟨r, hr, _, _, h⟩ :=
    count_and_size_after_ingests [] System.start "sessA" true true
      [({ id := 5, valid := true, image := 1, depthOrRightImage := 2 }, 1500, 2500)]
      rfl rfl (by decide) (by decide) (by decide)
  obtain ⟨h1, h2, h3⟩ := h _ rfl rfl
  exact ⟨r, hr, h1, by rw [h2]; rfl, h3⟩

theorem lastSignature_parseParameters (m : Memory) (p : ParametersMap) :
    (m.parseParameters p).lastSignature = m.lastSignature := by
  unfold Memory.parseParameters
  split <;> rfl

theorem stMem_parseParameters (m : Memory) (p : ParametersMap) :
    (m.parseParameters p).stMem = m.stMem := by
  unfold Memory.parseParameters
  split <;> rfl

set_option maxRecDepth 100000 in
/-- C2 (the code at the failing input). On a session opened on "sessA", of 30
successful ingests the guarded `emptyTrash` is invoked on ingests 1 to 29 and not
on the 30th: the guard `++count_ % 30` holds when the counter is not a multiple
of 30. -/
theorem emptyTrash_on_all_but_30th :
    (addDataAll sessA (List.replicate 30 (frameWithId 0, UpdateOutcome.committed 1500 2500))).toOption.map
        (fun r => (r.1.count_, emptyTrashCalls 1 r.2)) =
      some (30, [1, 2, 3, 4, 5, 6, 7, 8, 9, 10, 11, 12, 13, 14, 15, 16, 17, 18, 19, 20,
                 21, 22, 23, 24, 25, 26, 27, 28, 29]) := by
  decide

/-- C3. `addData` on a closed recorder (`memory_` null, as after construction and
after `closeRecorder`) returns the recorder unchanged, and performs no call on the
store and no write to a counter. -/
theorem addData_closed_noop (s : DataRecorder) (data : SensorData) (outcome : UpdateOutcome)
    (h : s.memory_ = none) :
    (∃ t, s.addData data outcome = Except.ok (s, t) ∧
      ∀ a ∈ t, a.usesStore = false ∧ a.writesCounter = false) ∧
    DataRecorder.construct.memory_ = none ∧
    ∀ (s0 : DataRecorder) (v : Bool), (s0.closeRecorder v).1.memory_ = none := by
  refine ⟨⟨[Action.lock, Action.unlock], addData_closed s data outcome h, ?_⟩, rfl, fun _ _ => rfl⟩
  intro a ha
  simp only [List.mem_cons, List.mem_singleton, List.not_mem_nil, or_false] at ha
  rcases ha with ha | ha <;> subst ha <;> exact ⟨rfl, rfl⟩

theorem addData_closed_noop_witness :
    ∃ t, (sessA.closeRecorder false).1.addData (frameWithId 5) (UpdateOutcome.committed 1500 2500)
        = Except.ok ((sessA.closeRecorder false).1, t) ∧
      ∀ a ∈ t, a.usesStore = false ∧ a.writesCounter = false :=
  (addData_closed_noop (sessA.closeRecorder false).1 (frameWithId 5)
    (UpdateOutcome.committed 1500 2500) rfl).1

/-- C4 (the code at the failing input). On a session opened on "sessA", after one
committed frame (sizes 1500 and 2500) the counters are 1 and 3; an ingest whose
store write fails then leaves them at 2 and 6, not at 1 and 3: the result of
`Memory::update` is not looked at and the sizes of the previous record are added
again. On the freshly opened session a failed write makes `addData` read through
the null record. -/
theorem failed_update_moves_counters :
    countersAfter sessA [(frameWithId 5, UpdateOutcome.committed 1500 2500)] = some (1, 3) ∧
    countersAfter sessA [(frameWithId 5, UpdateOutcome.committed 1500 2500),
                         (frameWithId 6, UpdateOutcome.failed)] = some (2, 6) ∧
    sessA.addData (frameWithId 5) UpdateOutcome.failed = Except.error Fault.nullSignature :=
  ⟨by decide, by decide, rfl⟩

/-- C7. `init` reports failure when the session is already open and when the store
fails to initialise, and a failed `init` returns the recorder exactly as it was, in
every state; in a state the recorder can reach, a failed `init` on a closed session
leaves it closed with the target unchanged and both counters at 0, and an ingest
after it is a no-op. -/
theorem init_failure_is_atomic (steps : List Step) (sys : System) (path : String)
    (recordInRAM storeOk : Bool) (hreach : run System.start steps = Except.ok sys) :
    (∀ s : DataRecorder,
      (s.memory_.isSome = true → (s.init path recordInRAM storeOk).1 = false) ∧
      (storeOk = false → (s.init path recordInRAM storeOk).1 = false) ∧
      ((s.init path recordInRAM storeOk).1 = false →
        (s.init path recordInRAM storeOk).2.1 = s)) ∧
    ((sys.recorder.init path recordInRAM storeOk).1 = false → sys.recorder.memory_ = none →
      (sys.recorder.init path recordInRAM storeOk).2.1.memory_ = none ∧
      (sys.recorder.init path recordInRAM storeOk).2.1.path_ = sys.recorder.path_ ∧
      (sys.recorder.init path recordInRAM storeOk).2.1.count_ = 0 ∧
      (sys.recorder.init path recordInRAM storeOk).2.1.totalSizeKB_ = 0 ∧
      ∀ (data : SensorData) (outcome : UpdateOutcome),
        (sys.recorder.init path recordInRAM storeOk).2.1.addData data outcome =
          Except.ok (sys.recorder, [Action.lock, Action.unlock])) := by
  refine ⟨fun s => ⟨?_, ?_, init_false s path recordInRAM storeOk⟩, ?_⟩
  · intro hs
    cases hm : s.memory_ with
    | none => rw [hm] at hs; exact absurd hs (by simp)
    | some m => rw [init_open s m path recordInRAM storeOk hm]
  · intro hok
    subst hok
    cases hm : s.memory_ with
    | none => exact (init_closed_fail s path recordInRAM hm).1
    | some m => rw [init_open s m path recordInRAM false hm]
  · intro hfail hclosed
    have hinv := countersReset_run steps System.start sys countersReset_construct hreach hclosed
    rw [init_false sys.recorder path recordInRAM storeOk hfail]
    exact ⟨hclosed, rfl, hinv.1, hinv.2,
      fun data outcome => addData_closed sys.recorder data outcome hclosed⟩

theorem init_failure_is_atomic_witness :
    (sessA.init "sessB" true true).1 = false ∧
    (DataRecorder.construct.init "sessA" true false).1 = false ∧
    (DataRecorder.construct.init "sessA" true false).2.1 = DataRecorder.construct ∧
    (DataRecorder.construct.init "sessA" true false).2.1.count_ = 0 :=
  ⟨((init_failure_is_atomic [] System.start "sessB" true true rfl).1 sessA).1 rfl,
   ((init_failure_is_atomic [] System.start "sessA" true false rfl).1 DataRecorder.construct).2.1 rfl,
   ((init_failure_is_atomic [] System.start "sessA" true false rfl).1 DataRecorder.construct).2.2 rfl,
   ((init_failure_is_atomic [] System.start "sessA" true false rfl).2 rfl rfl).2.2.1⟩

theorem closeRecorder_twice (s : DataRecorder) (v1 v2 : Bool) :
    ((s.closeRecorder v1).1.closeRecorder v2).1 = (s.closeRecorder v1).1 ∧
    ((s.closeRecorder v1).1.closeRecorder v2).2.filter Action.isSummary =
      (if v2 then [Action.messageBoxDataRecorded s.path_] else []) := by
  cases v2 <;> exact ⟨rfl, rfl⟩

/-- C8 (the code at the failing input). On a session opened on "sessA" with the
widget visible, a second `closeRecorder` right after the first leaves the recorder
in the same state (closed, counters 0, busy flag false), and shows the
"Data recorded to" dialog once more; only the logged summary is guarded by the
session being open. -/
theorem second_close_shows_dialog_again :
    ((sessA.closeRecorder true).1.closeRecorder true).1 = (sessA.closeRecorder true).1 ∧
    (sessA.closeRecorder true).1 =
      { memory_ := none, path_ := "sessA", processingImages_ := false, count_ := 0,
        totalSizeKB_ := 0 } ∧
    (sessA.closeRecorder true).2.filter Action.isSummary =
      [Action.uinfoDataRecorded "sessA", Action.messageBoxDataRecorded "sessA"] ∧
    ((sessA.closeRecorder true).1.closeRecorder true).2.filter Action.isSummary =
      [Action.messageBoxDataRecorded "sessA"] := by
  decide

/-- C9. In every state reached from a constructed recorder by a sequence of calls,
a closed session has both counters at zero, and a successful `init` leaves the
session open with the given target recorded and both counters at zero. -/
theorem init_starts_at_zero (steps : List Step) (sys : System) (path : String)
    (recordInRAM storeOk : Bool) (hreach : run System.start steps = Except.ok sys) :
    (sys.recorder.memory_ = none → sys.recorder.count_ = 0 ∧ sys.recorder.totalSizeKB_ = 0) ∧
    ((sys.recorder.init path recordInRAM storeOk).1 = true →
      (sys.recorder.init path recordInRAM storeOk).2.1.memory_.isSome = true ∧
      (sys.recorder.init path recordInRAM storeOk).2.1.path_ = path ∧
      (sys.recorder.init path recordInRAM storeOk).2.1.count_ = 0 ∧
      (sys.recorder.init path recordInRAM storeOk).2.1.totalSizeKB_ = 0) := by
  have hinv := countersReset_run steps System.start sys countersReset_construct hreach
  refine ⟨hinv, ?_⟩
  intro hopen
  obtain ⟨hclosed, hok⟩ := init_true sys.recorder path recordInRAM storeOk hopen
  subst hok
  rw [(init_closed_ok sys.recorder path recordInRAM hclosed).2]
  exact ⟨rfl, rfl, (hinv hclosed).1, (hinv hclosed).2⟩

theorem init_starts_at_zero_witness :
    run System.start
        [Step.init "sessA" true true,
         Step.addData (frameWithId 5) (UpdateOutcome.committed 1500 2500),
         Step.closeRecorder false] =
      Except.ok { recorder := { memory_ := none, path_ := "sessA", processingImages_ := false,
                                count_ := 0, totalSizeKB_ := 0 },
                  queue := [] } ∧
    (({ memory_ := none, path_ := "sessA", processingImages_ := false, count_ := 0,
        totalSizeKB_ := 0 } : DataRecorder).init "sessB" false true).2.1.path_ = "sessB" ∧
    (({ memory_ := none, path_ := "sessA", processingImages_ := false, count_ := 0,
        totalSizeKB_ := 0 } : DataRecorder).init "sessB" false true).2.1.count_ = 0 :=
  ⟨rfl,
   ((init_starts_at_zero
      [Step.init "sessA" true true,
       Step.addData (frameWithId 5) (UpdateOutcome.committed 1500 2500),
       Step.closeRecorder false]
      { recorder := { memory_ := none, path_ := "sessA", processingImages_ := false,
                      count_ := 0, totalSizeKB_ := 0 },
        queue := [] } "sessB" false true rfl).2 rfl).2.1,
   ((init_starts_at_zero
      [Step.init "sessA" true true,
       Step.addData (frameWithId 5) (UpdateOutcome.committed 1500 2500),
       Step.closeRecorder false]
      { recorder := { memory_ := none, path_ := "sessA", processingImages_ := false,
                      count_ := 0, totalSizeKB_ := 0 },
        queue := [] } "sessB" false true rfl).2 rfl).2.2.1⟩

theorem init_processingImages (s : DataRecorder) (path : String) (b ok : Bool) :
    (s.init path b ok).2.1.processingImages_ = s.processingImages_ := by
  unfold DataRecorder.init
  cases s.memory_ with
  | none => simp only; split_ifs <;> rfl
  | some m => rfl

theorem addData_processingImages (s : DataRecorder) (data : SensorData) (outcome : UpdateOutcome)
    (r : DataRecorder × List Action) (h : s.addData data outcome = Except.ok r) :
    r.1.processingImages_ = s.processingImages_ ∧ posted r.2 = [] := by
  cases hm : s.memory_ with
  | none =>
    rw [addData_closed s data outcome hm] at h
    injection h with h
    subst h
    exact ⟨rfl, rfl⟩
  | some m =>
    obtain ⟨_, _, h3, h4, _⟩ := addData_open s m data outcome r hm h
    exact ⟨h3, h4⟩

theorem posted_append (t1 t2 : List Action) : posted (t1 ++ t2) = posted t1 ++ posted t2 := by
  induction t1 with
  | nil => rfl
  | cons a rest ih =>
    cases a <;> simp [posted, ih]

/-- What one call does to the preview path: (A) nothing; (B) `closeRecorder`
clears the busy flag; (C) `handleEvent` finds the flag clear, sets it and queues
one `showImage`; (D) the oldest queued `showImage` runs and clears the flag. -/
theorem step_preview (sys1 sys2 : System) (st : Step) (h : step sys1 st = Except.ok sys2) :
    (sys2.queue = sys1.queue ∧
      sys2.recorder.processingImages_ = sys1.recorder.processingImages_) ∨
    ((∃ v, st = Step.closeRecorder v) ∧ sys2.queue = sys1.queue ∧
      sys2.recorder.processingImages_ = false) ∨
    ((∃ e v o, st = Step.handleEvent e v o) ∧ sys1.recorder.processingImages_ = false ∧
      sys2.recorder.processingImages_ = true ∧ ∃ p, sys2.queue = sys1.queue ++ [p]) ∨
    (st = Step.showImage ∧ sys2.recorder.processingImages_ = false ∧
      ∃ p, sys1.queue = p :: sys2.queue) := by
  cases st with
  | init path b ok =>
    simp only [step] at h
    injection h with h
    subst h
    exact Or.inl ⟨rfl, init_processingImages sys1.recorder path b ok⟩
  | addData data outcome =>
    simp only [step] at h
    cases hadd : sys1.recorder.addData data outcome with
    | error f => rw [hadd] at h; exact absurd h (by simp)
    | ok r =>
      rw [hadd] at h
      injection h with h
      subst h
      exact Or.inl ⟨rfl, (addData_processingImages sys1.recorder data outcome r hadd).1⟩
  | closeRecorder v =>
    simp only [step] at h
    injection h with h
    subst h
    exact Or.inr (Or.inl ⟨⟨v, rfl⟩, rfl, rfl⟩)
  | handleEvent event v outcome =>
    simp only [step] at h
    cases hev : sys1.recorder.handleEvent event v outcome with
    | error f => rw [hev] at h; exact absurd h (by simp)
    | ok r =>
      rw [hev] at h
      injection h with h
      subst h
      rcases handleEvent_cases sys1.recorder event v outcome r hev with h1 | ⟨r1, hadd, _, h2 | h2⟩
      · subst h1
        exact Or.inl ⟨by simp [posted], rfl⟩
      · obtain ⟨h2, _⟩ := h2
        subst h2
        obtain ⟨hp, hq⟩ := addData_processingImages sys1.recorder event.data outcome r hadd
        exact Or.inl ⟨by simp [hq], hp⟩
      · obtain ⟨h2, hflag, _⟩ := h2
        subst h2
        obtain ⟨hp, hq⟩ := addData_processingImages sys1.recorder event.data outcome r1 hadd
        refine Or.inr (Or.inr (Or.inl ⟨⟨event, v, outcome, rfl⟩, ?_, rfl, ?_⟩))
        · rw [← hp]; exact hflag
        · exact ⟨(event.data.image, event.data.depthOrRightImage), by
            simp [posted_append, hq, posted]⟩
  | showImage =>
    simp only [step] at h
    cases hq : sys1.queue with
    | nil =>
      rw [hq] at h
      injection h with h
      subst h
      exact Or.inl ⟨hq, rfl⟩
    | cons p rest =>
      rw [hq] at h
      injection h with h
      subst h
      exact Or.inr (Or.inr (Or.inr ⟨rfl, rfl, p, rfl⟩))

theorem singleFlight_step (sys1 sys2 : System) (st : Step) (h : step sys1 st = Except.ok sys2)
    (hinv : SingleFlight sys1)
    (hidle : ∀ v, st = Step.closeRecorder v → sys1.queue = []) : SingleFlight sys2 := by
  obtain ⟨hlen, hflag⟩ := hinv
  rcases step_preview sys1 sys2 st h with ⟨hq, hp⟩ | ⟨⟨v, hv⟩, hq, _⟩ | ⟨_, hp1, hp2, p, hq⟩ |
    ⟨_, _, p, hq⟩
  · exact ⟨by rw [hq]; exact hlen, fun hne => by rw [hp]; exact hflag (by rw [← hq]; exact hne)⟩
  · have hempty := hidle v hv
    rw [hempty] at hq
    exact ⟨by rw [hq]; simp, fun hne => absurd hq hne⟩
  · have hempty : sys1.queue = [] := by
      by_contra hne
      rw [hflag hne] at hp1
      exact absurd hp1 (by simp)
    rw [hempty] at hq
    exact ⟨by rw [hq]; simp, fun _ => hp2⟩
  · rw [hq] at hlen
    have hnil : sys2.queue = [] := by
      cases hs : sys2.queue with
      | nil => rfl
      | cons a rest => rw [hs] at hlen; simp at hlen
    exact ⟨by rw [hnil]; simp, fun hne => absurd hnil hne⟩

theorem singleFlight_run (steps : List Step) (sys1 sys2 : System)
    (h : run sys1 steps = Except.ok sys2) (hinv : SingleFlight sys1)
    (hidle : closesWhenIdle sys1 steps = true) : SingleFlight sys2 := by
  induction steps generalizing sys1 with
  | nil =>
    simp only [run] at h
    injection h with h
    subst h
    exact hinv
  | cons st rest ih =>
    simp only [run] at h
    cases hs : step sys1 st with
    | error f => rw [hs] at h; exact absurd h (by simp)
    | ok sys3 =>
      rw [hs] at h
      simp only [closesWhenIdle, hs, Bool.and_eq_true] at hidle
      refine ih sys3 h (singleFlight_step sys1 sys3 st hs hinv ?_) hidle.2
      intro v hv
      subst hv
      simpa using hidle.1

/-- C5 (counterexample). Open, one accepted preview, `closeRecorder` (which clears
the busy flag while the `showImage` invocation is still queued), open again, a
second preview: it is accepted too, and two `showImage` invocations are queued. -/
theorem two_previews_in_flight :
    previewAfter [Step.init "sessA" true true,
                  Step.handleEvent cameraEvent true (UpdateOutcome.committed 1500 2500)]
      = some (true, 1) ∧
    previewAfter [Step.init "sessA" true true,
                  Step.handleEvent cameraEvent true (UpdateOutcome.committed 1500 2500),
                  Step.closeRecorder false]
      = some (false, 1) ∧
    previewAfter [Step.init "sessA" true true,
                  Step.handleEvent cameraEvent true (UpdateOutcome.committed 1500 2500),
                  Step.closeRecorder false,
                  Step.init "sessA" true true,
                  Step.handleEvent cameraEvent true (UpdateOutcome.committed 1500 2500)]
      = some (true, 2) := by
  decide

/-- C5 (amended). Over every sequence of calls from a constructed recorder in which
`closeRecorder` is only called while no `showImage` invocation is queued, at most
one invocation is queued and the busy flag is set while it is. In every state, a
call queues an invocation only if it is a `handleEvent` that found the flag clear,
and it sets the flag; a `handleEvent` that finds the flag set queues nothing and
returns normally whenever the ingest does; and the flag is cleared only by the
queued `showImage` running or by `closeRecorder`. -/
theorem single_flight_while_not_closed (steps : List Step) (sys : System)
    (hreach : run System.start steps = Except.ok sys)
    (hidle : closesWhenIdle System.start steps = true) :
    sys.queue.length ≤ 1 ∧
    (sys.queue ≠ [] → sys.recorder.processingImages_ = true) ∧
    (∀ (sys1 sys2 : System) (st : Step), step sys1 st = Except.ok sys2 →
      (sys2.queue.length > sys1.queue.length →
        (∃ e v o, st = Step.handleEvent e v o) ∧ sys1.recorder.processingImages_ = false ∧
        sys2.recorder.processingImages_ = true ∧ sys2.queue.length = sys1.queue.length + 1) ∧
      ((∃ e v o, st = Step.handleEvent e v o) → sys1.recorder.processingImages_ = true →
        sys2.queue = sys1.queue ∧ sys2.recorder.processingImages_ = true) ∧
      (sys1.recorder.processingImages_ = true → sys2.recorder.processingImages_ = false →
        (st = Step.showImage ∧ sys1.queue ≠ []) ∨ ∃ v, st = Step.closeRecorder v)) ∧
    (∀ (s : DataRecorder) (e : UEvent) (v : Bool) (o : UpdateOutcome) (r : DataRecorder × List Action),
      s.processingImages_ = true → s.addData e.data o = Except.ok r →
      ∃ r1, s.handleEvent e v o = Except.ok r1 ∧ posted r1.2 = []) := by
  have hinv : SingleFlight System.start := ⟨by simp [System.start], fun hne => absurd rfl hne⟩
  obtain ⟨h1, h2⟩ := singleFlight_run steps System.start sys hreach hinv hidle
  refine ⟨h1, h2, ?_, ?_⟩
  · intro sys1 sys2 st hs
    rcases step_preview sys1 sys2 st hs with ⟨hq, hp⟩ | ⟨⟨v, hv⟩, hq, hp⟩ | ⟨hst, hp1, hp2, p, hq⟩ |
      ⟨hst, hp, p, hq⟩
    · refine ⟨fun hlt => ?_, fun _ hbusy => ⟨hq, by rw [hp]; exact hbusy⟩, fun hbusy hclear => ?_⟩
      · rw [hq] at hlt; exact absurd hlt (by simp)
      · rw [hp, hbusy] at hclear; exact absurd hclear (by simp)
    · refine ⟨fun hlt => ?_, fun hev _ => ?_, fun _ _ => Or.inr ⟨v, hv⟩⟩
      · rw [hq] at hlt; exact absurd hlt (by simp)
      · obtain ⟨e, v2, o, he⟩ := hev
        rw [hv] at he
        exact absurd he (by simp)
    · refine ⟨fun _ => ⟨hst, hp1, hp2, by rw [hq]; simp⟩, fun _ hbusy => ?_, fun hbusy _ => ?_⟩
      · rw [hp1] at hbusy; exact absurd hbusy (by simp)
      · rw [hp1] at hbusy; exact absurd hbusy (by simp)
    · refine ⟨fun hlt => ?_, fun hev _ => ?_, fun _ _ => Or.inl ⟨hst, by rw [hq]; simp⟩⟩
      · rw [hq] at hlt; simp at hlt
      · obtain ⟨e, v2, o, he⟩ := hev
        rw [hst] at he
        exact absurd he (by simp)
  · intro s e v o r hbusy hadd
    have hp := addData_processingImages s e.data o r hadd
    unfold DataRecorder.handleEvent
    split_ifs
    · rw [hadd]
      obtain ⟨s1, t1⟩ := r
      simp only at hp
      simp only [hp.1, hbusy]
      exact ⟨(s1, t1), by simp, hp.2⟩
    all_goals exact ⟨(s, []), rfl, rfl⟩

theorem single_flight_while_not_closed_witness :
    run System.start
        [Step.init "sessA" true true,
         Step.handleEvent cameraEvent true (UpdateOutcome.committed 1500 2500),
         Step.handleEvent cameraEvent true (UpdateOutcome.committed 1500 2500),
         Step.showImage,
         Step.closeRecorder true] =
      Except.ok { recorder := { memory_ := none, path_ := "sessA", processingImages_ := false,
                                count_ := 0, totalSizeKB_ := 0 },
                  queue := [] } ∧
    ([] : List (Nat × Nat)).length ≤ 1 :=
  ⟨rfl,
   (single_flight_while_not_closed
      [Step.init "sessA" true true,
       Step.handleEvent cameraEvent true (UpdateOutcome.committed 1500 2500),
       Step.handleEvent cameraEvent true (UpdateOutcome.committed 1500 2500),
       Step.showImage,
       Step.closeRecorder true]
      { recorder := { memory_ := none, path_ := "sessA", processingImages_ := false,
                      count_ := 0, totalSizeKB_ := 0 },
        queue := [] } rfl (by decide)).1⟩

/-- What a returning `addData` on an open recorder does to the identifier mode, for
a store with no committed record while its short-term memory is empty. -/
theorem addData_idMode (s : DataRecorder) (m : Memory) (data : SensorData)
    (outcome : UpdateOutcome) (r : DataRecorder × List Action)
    (hm : s.memory_ = some m) (hwf : m.stMem = [] → m.lastSignature = none)
    (h : s.addData data outcome = Except.ok r) :
    ∃ m1, r.1.memory_ = some m1 ∧ m1.stMem ≠ [] ∧
      (switchesIdMode r.2 = true ↔ (m.stMem = [] ∧ data.id > 0)) ∧
      ((m.stMem = [] ∧ data.id > 0) → m1.generateIds = false) ∧
      (¬ (m.stMem = [] ∧ data.id > 0) → m1.generateIds = m.generateIds) := by
  by_cases hc : m.stMem = [] ∧ data.id > 0
  · have hb : (decide (m.stMem.length = 0) && decide (data.id > 0)) = true := by
      simp [hc.1, hc.2]
    cases outcome with
    | failed =>
      simp only [addData, hm, hb, Memory.update, Memory.getLastWorkingSignature, if_true,
        lastSignature_parseParameters, hwf hc.1] at h
      exact absurd h (by simp)
    | committed a b =>
      simp only [addData, hm, hb, Memory.update, Memory.getLastWorkingSignature, if_true,
        Memory.cleanup, Memory.emptyTrash, ite_self] at h
      injection h with h
      subst h
      refine ⟨_, rfl, by simp, ?_, fun _ => rfl, fun hn => absurd hc hn⟩
      simp only [hc, and_self, iff_true]
      split_ifs <;> rfl
  · have hb : (decide (m.stMem.length = 0) && decide (data.id > 0)) = false := by
      simpa using hc
    have hne : m.stMem ≠ [] ∨ ¬ data.id > 0 := by
      by_cases h1 : m.stMem = []
      · exact Or.inr (fun h2 => hc ⟨h1, h2⟩)
      · exact Or.inl h1
    cases outcome with
    | failed =>
      simp only [addData, hm, hb, Memory.update, Memory.getLastWorkingSignature,
        Memory.cleanup, Memory.emptyTrash, ite_self, Bool.false_eq_true, if_false] at h
      split at h
      · exact absurd h (by simp)
      · rename_i sig hsig
        injection h with h
        subst h
        have hst : m.stMem ≠ [] := by
          intro hnil
          rw [hwf hnil] at hsig
          exact absurd hsig (by simp)
        refine ⟨_, rfl, hst, ?_, fun h1 => absurd h1 hc, fun _ => rfl⟩
        simp only [hc, iff_false]
        split_ifs <;> first | rfl | simp [switchesIdMode, Action.selectsDataIds]
    | committed a b =>
      simp only [addData, hm, hb, Memory.update, Memory.getLastWorkingSignature,
        Memory.cleanup, Memory.emptyTrash, ite_self, Bool.false_eq_true, if_false] at h
      injection h with h
      subst h
      refine ⟨_, rfl, by simp, ?_, fun h1 => absurd h1 hc, fun _ => rfl⟩
      simp only [hc, iff_false]
      split_ifs <;> first | rfl | simp [switchesIdMode, Action.selectsDataIds]

/-- Once the short-term memory is not empty, no later `addData` switches the
identifier mode, and the mode stays what it was. -/
theorem addDataAll_nonempty (frames : List (SensorData × UpdateOutcome)) (s : DataRecorder)
    (m : Memory) (r : DataRecorder × List (List Action))
    (hm : s.memory_ = some m) (hne : m.stMem ≠ [])
    (h : addDataAll s frames = Except.ok r) :
    ∃ m1, r.1.memory_ = some m1 ∧ m1.generateIds = m.generateIds ∧
      ∀ t ∈ r.2, switchesIdMode t = false := by
  induction frames generalizing s m r with
  | nil =>
    simp only [addDataAll] at h
    injection h with h
    subst h
    exact ⟨m, hm, rfl, by simp⟩
  | cons f rest ih =>
    obtain ⟨data, outcome⟩ := f
    simp only [addDataAll] at h
    cases hadd : s.addData data outcome with
    | error e => rw [hadd] at h; exact absurd h (by simp)
    | ok r1 =>
      obtain ⟨s1, t1⟩ := r1
      rw [hadd] at h
      simp only at h
      cases hrest : addDataAll s1 rest with
      | error e => rw [hrest] at h; exact absurd h (by simp)
      | ok r2 =>
        obtain ⟨s2, ts⟩ := r2
        rw [hrest] at h
        injection h with h
        subst h
        obtain ⟨m1, hm1, hne1, hsw, _, hgen⟩ :=
          addData_idMode s m data outcome (s1, t1) hm (fun hnil => absurd hnil hne) hadd
        have hno : ¬ (m.stMem = [] ∧ data.id > 0) := fun hc => hne hc.1
        obtain ⟨m2, hm2, hgen2, hall⟩ := ih s1 m1 (s2, ts) hm1 hne1 hrest
        refine ⟨m2, hm2, by rw [hgen2, hgen hno], ?_⟩
        intro t ht
        simp only [List.mem_cons] at ht
        rcases ht with ht | ht
        · subst ht
          cases hb : switchesIdMode t with
          | false => rfl
          | true => exact absurd (hsw.mp hb) hno
        · exact hall t ht

/-- C6. Within a session (an open recorder whose store has no committed record
while its short-term memory is empty, as after a successful `init`), over any
sequence of ingests: the switch to caller-supplied identifiers is made by at most
one ingest; only by the first, and only when the store was empty then and that
frame's identifier is > 0; once made, or if the mode was already caller-supplied,
the mode is caller-supplied at the end whatever the later identifiers; and if the
store was not empty or the first frame's identifier is <= 0, no ingest makes the
switch and the mode stays what it was. -/
theorem idMode_switch_only_at_first_ingest (s : DataRecorder) (m : Memory)
    (frames : List (SensorData × UpdateOutcome)) (r : DataRecorder × List (List Action))
    (hm : s.memory_ = some m) (hwf : m.stMem = [] → m.lastSignature = none)
    (hrun : addDataAll s frames = Except.ok r) :
    ∃ m1, r.1.memory_ = some m1 ∧
      (r.2.filter switchesIdMode).length ≤ 1 ∧
      (∀ (k : Nat) (t : List Action), r.2[k]? = some t → switchesIdMode t = true →
        k = 0 ∧ m.stMem = [] ∧ ∃ f, frames.head? = some f ∧ f.1.id > 0) ∧
      ((m.generateIds = false ∨ ∃ t ∈ r.2, switchesIdMode t = true) → m1.generateIds = false) ∧
      ((m.stMem ≠ [] ∨ ∃ f, frames.head? = some f ∧ f.1.id ≤ 0) →
        (∀ t ∈ r.2, switchesIdMode t = false) ∧ m1.generateIds = m.generateIds) := by
  cases frames with
  | nil =>
    simp only [addDataAll] at hrun
    injection hrun with hrun
    subst hrun
    refine ⟨m, hm, by simp, ?_, ?_, ?_⟩
    · intro k t hk
      simp at hk
    · rintro (h1 | ⟨t, ht, _⟩)
      · exact h1
      · simp at ht
    · intro _
      exact ⟨by simp, rfl⟩
  | cons f rest =>
    obtain ⟨data, outcome⟩ := f
    simp only [addDataAll] at hrun
    cases hadd : s.addData data outcome with
    | error e => rw [hadd] at hrun; exact absurd hrun (by simp)
    | ok r1 =>
      obtain ⟨s1, t1⟩ := r1
      rw [hadd] at hrun
      simp only at hrun
      cases hrest : addDataAll s1 rest with
      | error e => rw [hrest] at hrun; exact absurd hrun (by simp)
      | ok r2 =>
        obtain ⟨s2, ts⟩ := r2
        rw [hrest] at hrun
        injection hrun with hrun
        subst hrun
        obtain ⟨m1, hm1, hne1, hsw, hyes, hno⟩ := addData_idMode s m data outcome (s1, t1) hm hwf hadd
        obtain ⟨m2, hm2, hgen2, hall⟩ := addDataAll_nonempty rest s1 m1 (s2, ts) hm1 hne1 hrest
        have hfilter : ts.filter switchesIdMode = [] := by
          rw [List.filter_eq_nil_iff]
          intro t ht
          rw [hall t ht]
          simp
        refine ⟨m2, hm2, ?_, ?_, ?_, ?_⟩
        · simp only [List.filter_cons, hfilter]
          split_ifs <;> simp
        · intro k t hk ht
          cases k with
          | zero =>
            simp only [List.getElem?_cons_zero, Option.some.injEq] at hk
            subst hk
            have hc := hsw.mp ht
            exact ⟨rfl, hc.1, (data, outcome), rfl, hc.2⟩
          | succ k =>
            simp only [List.getElem?_cons_succ] at hk
            have hmem : t ∈ ts := List.getElem?_mem hk
            rw [hall t hmem] at ht
            exact absurd ht (by simp)
        · intro hor
          rw [hgen2]
          by_cases hc : m.stMem = [] ∧ data.id > 0
          · exact hyes hc
          · rw [hno hc]
            rcases hor with h1 | ⟨t, ht, hst⟩
            · exact h1
            · simp only [List.mem_cons] at ht
              rcases ht with ht | ht
              · subst ht
                exact absurd (hsw.mp hst) hc
              · rw [hall t ht] at hst
                exact absurd hst (by simp)
        · intro hor
          have hc : ¬ (m.stMem = [] ∧ data.id > 0) := by
            rintro ⟨h1, h2⟩
            rcases hor with h3 | ⟨g, hg, hid⟩
            · exact h3 h1
            · simp only [List.head?_cons, Option.some.injEq] at hg
              subst hg
              simp only at hid
              omega
          refine ⟨?_, by rw [hgen2, hno hc]⟩
          intro t ht
          simp only [List.mem_cons] at ht
          rcases ht with ht | ht
          · subst ht
            cases hb : switchesIdMode t with
            | false => rfl
            | true => exact absurd (hsw.mp hb) hc
          · exact hall t ht

theorem idMode_switch_only_at_first_ingest_witness :
    addDataAll sessA threeFrames = Except.ok (sessARun threeFrames) ∧
    (sessARun threeFrames).2.map switchesIdMode = [true, false, false] ∧
    ∃ m1, (sessARun threeFrames).1.memory_ = some m1 ∧ m1.generateIds = false := by
  obtain ⟨m1, hm1, _, _, h4, _⟩ :=
    idMode_switch_only_at_first_ingest sessA (openedMemory "sessA" true) threeFrames
      (sessARun threeFrames) rfl (fun _ => rfl) rfl
  exact ⟨rfl, by decide, m1, hm1, h4 (Or.inr (by decide))⟩

/-- C10 (counterexample). `closeRecorder` on the session opened on "sessA" writes
`count_` and `totalSizeKB_` after it has released `memoryMutex_`. -/
theorem closeRecorder_resets_outside_mutex :
    (sessA.closeRecorder false).2 =
      [Action.lock, Action.deleteMemory, Action.writeMemory, Action.uinfoDataRecorded "sessA",
       Action.unlock, Action.writeProcessingImages false, Action.writeCount,
       Action.writeTotalSizeKB] ∧
    underMutex (sessA.closeRecorder false).2 = false := by
  decide

/-- C10 (amended). In `addData` every write to a counter and every use of the
store happens while `memoryMutex_` is held, and so does every use of the store in
`closeRecorder`; the counter writes of `closeRecorder` happen after the mutex is
released. -/
theorem store_use_under_mutex (s : DataRecorder) (data : SensorData) (outcome : UpdateOutcome)
    (r : DataRecorder × List Action) (v : Bool)
    (h : s.addData data outcome = Except.ok r) :
    underMutex r.2 = true ∧
    lockScoped Action.usesStore false (s.closeRecorder v).2 = true ∧
    lockScoped Action.writesCounter false (s.closeRecorder v).2 = false := by
  refine ⟨?_, ?_, ?_⟩
  · cases hm : s.memory_ with
    | none =>
      rw [addData_closed s data outcome hm] at h
      injection h with h
      subst h
      rfl
    | some m =>
      simp only [addData, hm] at h
      split at h
      · exact absurd h (by simp)
      · injection h with h
        subst h
        simp only
        split_ifs <;> rfl
  · unfold DataRecorder.closeRecorder
    cases s.memory_ <;> cases v <;> rfl
  · unfold DataRecorder.closeRecorder
    cases s.memory_ <;> cases v <;> rfl

theorem store_use_under_mutex_witness :
    sessA.addData (frameWithId 5) (UpdateOutcome.committed 1500 2500) =
      Except.ok ((sessARun [(frameWithId 5, UpdateOutcome.committed 1500 2500)]).1,
        [Action.lock, Action.getStMem,
         Action.parseParameters [(ParamKey.kMemGenerateIds, "false")],
         Action.update 5, Action.getLastWorkingSignature, Action.writeTotalSizeKB,
         Action.writeTotalSizeKB, Action.cleanup, Action.writeCount, Action.emptyTrash,
         Action.unlock]) ∧
    lockScoped Action.usesStore false (sessA.closeRecorder true).2 = true :=
  ⟨rfl,
   (store_use_under_mutex sessA (frameWithId 5) (UpdateOutcome.committed 1500 2500)
      ((sessARun [(frameWithId 5, UpdateOutcome.committed 1500 2500)]).1,
        [Action.lock, Action.getStMem,
         Action.parseParameters [(ParamKey.kMemGenerateIds, "false")],
         Action.update 5, Action.getLastWorkingSignature, Action.writeTotalSizeKB,
         Action.writeTotalSizeKB, Action.cleanup, Action.writeCount, Action.emptyTrash,
         Action.unlock]) true rfl).2.1⟩

/-- The guard of `emptyTrash` in a run of successful ingests that stays below the
top of the `int` range: counted from a counter value `c`, the calls that invoke it
are those whose number is not a multiple of 30. -/
theorem emptyTrashCalls_committed (frames : List (SensorData × Nat × Nat)) (s : DataRecorder)
    (m : Memory) (c : Nat) (r : DataRecorder × List (List Action))
    (hm : s.memory_ = some m) (hc : s.count_ = (c : Int))
    (hbound : c + frames.length < 2147483648)
    (hr : addDataAll s (committedFrames frames) = Except.ok r) :
    emptyTrashCalls (c + 1) r.2 =
      (List.range' (c + 1) frames.length).filter (fun n => decide (n % 30 ≠ 0)) := by
  induction frames generalizing s m c r with
  | nil =>
    simp only [committedFrames, List.map_nil, addDataAll] at hr
    injection hr with hr
    subst hr
    rfl
  | cons f rest ih =>
    obtain ⟨r1, h1, hc1, _, _, _, ⟨m1, hm1, _, _⟩, htrash⟩ :=
      addData_committed s m f.1 f.2.1 f.2.2 hm
    obtain ⟨s1, t1⟩ := r1
    simp only [committedFrames, List.map_cons, addDataAll, h1] at hr
    cases hrest : addDataAll s1 (List.map (fun f => (f.1, UpdateOutcome.committed f.2.1 f.2.2)) rest) with
    | error e => rw [hrest] at hr; exact absurd hr (by simp)
    | ok r2 =>
      obtain ⟨s2, ts⟩ := r2
      rw [hrest] at hr
      injection hr with hr
      subst hr
      simp only [List.length_cons] at hbound
      have hwrap : wrapInt (s.count_ + 1) = ((c + 1 : Nat) : Int) := by
        rw [hc]
        push_cast
        apply wrapInt_of_inRange
        unfold InIntRange
        omega
      have hc2 : s1.count_ = ((c + 1 : Nat) : Int) := by
        simp only at hc1
        rw [hc1, hwrap]
      have hrec := ih s1 m1 (c + 1) (s2, ts) hm1 hc2 (by omega) hrest
      have hmod : Int.tmod (wrapInt (s.count_ + 1)) 30 = (((c + 1) % 30 : Nat) : Int) := by
        rw [hwrap, Int.tmod_eq_emod (by omega) (by omega)]
        omega
      simp only at htrash hrec
      simp only [emptyTrashCalls, htrash, hmod, List.length_cons, List.range']
      rw [List.filter_cons]
      by_cases h30 : (c + 1) % 30 = 0
      · simp [h30, hrec]
      · have h30i : ¬ (((c + 1) % 30 : Nat) : Int) = 0 := by omega
        simp [h30, h30i, hrec]
        omega

theorem storeConsistent_construct : StoreConsistent DataRecorder.construct := by
  intro m hm
  exact absurd hm (by simp [DataRecorder.construct])

theorem storeConsistent_init (s : DataRecorder) (path : String) (b ok : Bool)
    (h : StoreConsistent s) : StoreConsistent (s.init path b ok).2.1 := by
  cases hr : (s.init path b ok).1 with
  | false => rw [init_false s path b ok hr]; exact h
  | true =>
    obtain ⟨hclosed, hok⟩ := init_true s path b ok hr
    subst hok
    rw [(init_closed_ok s path b hclosed).2]
    intro m hm _
    simp only [Option.some.injEq] at hm
    subst hm
    rfl

theorem storeConsistent_addData (s : DataRecorder) (data : SensorData) (outcome : UpdateOutcome)
    (r : DataRecorder × List Action) (h : StoreConsistent s)
    (hr : s.addData data outcome = Except.ok r) : StoreConsistent r.1 := by
  cases hm : s.memory_ with
  | none =>
    rw [addData_closed s data outcome hm] at hr
    injection hr with hr
    subst hr
    exact h
  | some m =>
    obtain ⟨m1, hm1, hne, _⟩ := addData_idMode s m data outcome r hm (h m hm) hr
    intro m2 hm2 hnil
    rw [hm1] at hm2
    simp only [Option.some.injEq] at hm2
    subst hm2
    exact absurd hnil hne

theorem storeConsistent_step (sys sys1 : System) (st : Step) (h : StoreConsistent sys.recorder)
    (hs : step sys st = Except.ok sys1) : StoreConsistent sys1.recorder := by
  cases st with
  | init path b ok =>
    simp only [step] at hs
    injection hs with hs
    subst hs
    exact storeConsistent_init sys.recorder path b ok h
  | addData data outcome =>
    simp only [step] at hs
    cases hadd : sys.recorder.addData data outcome with
    | error f => rw [hadd] at hs; exact absurd hs (by simp)
    | ok r =>
      rw [hadd] at hs
      injection hs with hs
      subst hs
      exact storeConsistent_addData _ _ _ _ h hadd
  | closeRecorder v =>
    simp only [step] at hs
    injection hs with hs
    subst hs
    intro m hm
    exact absurd hm (by simp [DataRecorder.closeRecorder])
  | handleEvent event v outcome =>
    simp only [step] at hs
    cases hev : sys.recorder.handleEvent event v outcome with
    | error f => rw [hev] at hs; exact absurd hs (by simp)
    | ok r =>
      rw [hev] at hs
      injection hs with hs
      subst hs
      rcases handleEvent_cases sys.recorder event v outcome r hev with h1 | ⟨r1, hadd, _, h2 | h2⟩
      · rw [h1]; exact h
      · rw [h2.1]; exact storeConsistent_addData _ _ _ _ h hadd
      · rw [h2.1]; exact storeConsistent_addData _ _ _ _ h hadd
  | showImage =>
    simp only [step] at hs
    cases hq : sys.queue with
    | nil =>
      rw [hq] at hs
      injection hs with hs
      subst hs
      exact h
    | cons p rest =>
      rw [hq] at hs
      injection hs with hs
      subst hs
      exact h

/-- In every state the recorder reaches, the store has no committed record while
its short-term memory is empty. -/
theorem storeConsistent_run (steps : List Step) (sys sys1 : System)
    (h : StoreConsistent sys.recorder) (hr : run sys steps = Except.ok sys1) :
    StoreConsistent sys1.recorder := by
  induction steps generalizing sys with
  | nil =>
    simp only [run] at hr
    injection hr with hr
    subst hr
    exact h
  | cons st rest ih =>
    simp only [run] at hr
    cases hs : step sys st with
    | error f => rw [hs] at hr; exact absurd hr (by simp)
    | ok sys2 =>
      rw [hs] at hr
      exact ih sys2 (storeConsistent_step sys sys2 st h hs) hr

theorem countersInRange_addData (s : DataRecorder) (data : SensorData) (outcome : UpdateOutcome)
    (r : DataRecorder × List Action) (h : CountersInRange s)
    (hr : s.addData data outcome = Except.ok r) : CountersInRange r.1 := by
  cases hm : s.memory_ with
  | none =>
    rw [addData_closed s data outcome hm] at hr
    injection hr with hr
    subst hr
    exact h
  | some m =>
    obtain ⟨hc, _, _, _, _, _, _, _, ht⟩ := addData_open s m data outcome r hm hr
    refine ⟨?_, ?_⟩
    · rw [hc]; exact wrapInt_inRange _
    · rw [ht]; exact wrapInt_inRange _

theorem countersInRange_step (sys sys1 : System) (st : Step) (h : CountersInRange sys.recorder)
    (hs : step sys st = Except.ok sys1) : CountersInRange sys1.recorder := by
  cases st with
  | init path b ok =>
    simp only [step] at hs
    injection hs with hs
    subst hs
    cases hr : (sys.recorder.init path b ok).1 with
    | false =>
      simp only
      rw [init_false sys.recorder path b ok hr]
      exact h
    | true =>
      obtain ⟨hclosed, hok⟩ := init_true sys.recorder path b ok hr
      subst hok
      simp only
      rw [(init_closed_ok sys.recorder path b hclosed).2]
      exact h
  | addData data outcome =>
    simp only [step] at hs
    cases hadd : sys.recorder.addData data outcome with
    | error f => rw [hadd] at hs; exact absurd hs (by simp)
    | ok r =>
      rw [hadd] at hs
      injection hs with hs
      subst hs
      exact countersInRange_addData _ _ _ _ h hadd
  | closeRecorder v =>
    simp only [step] at hs
    injection hs with hs
    subst hs
    unfold CountersInRange InIntRange
    simp only [DataRecorder.closeRecorder]
    decide
  | handleEvent event v outcome =>
    simp only [step] at hs
    cases hev : sys.recorder.handleEvent event v outcome with
    | error f => rw [hev] at hs; exact absurd hs (by simp)
    | ok r =>
      rw [hev] at hs
      injection hs with hs
      subst hs
      rcases handleEvent_cases sys.recorder event v outcome r hev with h1 | ⟨r1, hadd, _, h2 | h2⟩
      · rw [h1]; exact h
      · rw [h2.1]; exact countersInRange_addData _ _ _ _ h hadd
      · rw [h2.1]; exact countersInRange_addData _ _ _ _ h hadd
  | showImage =>
    simp only [step] at hs
    cases hq : sys.queue with
    | nil =>
      rw [hq] at hs
      injection hs with hs
      subst hs
      exact h
    | cons p rest =>
      rw [hq] at hs
      injection hs with hs
      subst hs
      exact h

/-- In every state the recorder reaches, both counters are in the range of an
`int`. -/
theorem countersInRange_run (steps : List Step) (sys sys1 : System)
    (h : CountersInRange sys.recorder) (hr : run sys steps = Except.ok sys1) :
    CountersInRange sys1.recorder := by
  induction steps generalizing sys with
  | nil =>
    simp only [run] at hr
    injection hr with hr
    subst hr
    exact h
  | cons st rest ih =>
    simp only [run] at hr
    cases hs : step sys st with
    | error f => rw [hs] at hr; exact absurd hr (by simp)
    | ok sys2 =>
      rw [hs] at hr
      exact ih sys2 (countersInRange_step sys sys2 st h hs) hr

end rtabmap
